import Mathlib

/-!
Verification development for the `CommandDataOption` codec of
`src/model/src/application/interaction/application_command/option.rs`.

The wire layer (the serde structural reader and writer) is modelled as a
sequence of (field-name, wire-value) pairs; the encoder (`CommandDataOption::serialize`)
and decoder (`CommandDataOptionVisitor::visit_map`) are translated statement by
statement.  External collaborators (the `Id` snowflake type, the `Number` float
wrapper, the `CommandOptionType` enumeration) are not part of the given source;
where their behaviour matters it is modelled from the spec and noted as such.
-/

namespace Twilight

/-! ### Decimal identifier text

Modelled from the spec: the identifier type (the twilight `Id`, a `NonZeroU64`)
is out of scope of the given source.  Per the spec it supports "construction
from decimal text" and "rendering to decimal text"; a wire string is an
identifier token when it is lexically a valid 64-bit unsigned identifier,
i.e. the canonical decimal rendering of a nonzero value below 2^64. -/

def digitChar (d : Nat) : Char := Char.ofNat (48 + d)

/-- Big-endian decimal digits of `n`; the first argument is fuel (`n` itself
suffices, since the digit count of a positive `n` never exceeds `n`). -/
def decDigitsAux : Nat → Nat → List Char
| 0, _ => []
| _ + 1, 0 => []
| fuel + 1, n + 1 => decDigitsAux fuel ((n + 1) / 10) ++ [digitChar ((n + 1) % 10)]

/-- Canonical decimal rendering of a natural number (models `u64::to_string`). -/
def natToDec (n : Nat) : String := if n = 0 then "0" else String.mk (decDigitsAux n n)

def parseDecList (cs : List Char) : Nat := cs.foldl (fun a c => a * 10 + (c.toNat - 48)) 0

def parseDec (s : String) : Nat := parseDecList s.data

/-- Modelled from the spec: parsing of decimal identifier text (the
deserialization of `Id`, outside the given source).  A string is accepted exactly when
it is the canonical decimal rendering of a nonzero 64-bit value. -/
def idOfString? (s : String) : Option Nat :=
  let n := parseDec s
  if natToDec n = s ∧ 0 < n ∧ n < 2 ^ 64 then some n else none

/-! ### External value types -/

/-- Opaque model of an IEEE-754 double carried through the codec.  The codec
itself performs no floating-point arithmetic on decoded floats; the payload is
carried as opaque data with decidable value equality. -/
structure F64 where
  toRat : Rat
deriving DecidableEq, Repr

/-- Models the cast `i as f64` in the Number arm.  The model is exact; IEEE-754
rounding of integers beyond 2^53 is not modelled. -/
def F64.ofInt (i : Int) : F64 := ⟨(i : Rat)⟩

/-- The `Number` float wrapper (external, with value equality per the spec). -/
structure Number where
  val : F64
deriving DecidableEq, Repr

/-- Phantom markers of the `Id` type. -/
inductive Marker where
  | attachment
  | channel
  | generic
  | role
  | user
deriving DecidableEq, Repr

/-- The snowflake identifier (models the twilight `Id<M>`, a `NonZeroU64` with a
phantom marker).  Nonzero-ness is carried as a well-formedness side condition
where needed, not in the type. -/
structure Id (m : Marker) where
  value : Nat
deriving DecidableEq, Repr

/-- Models `Id::cast`, re-tagging an identifier with another marker. -/
def Id.cast {m m' : Marker} (i : Id m) : Id m' := ⟨i.value⟩

/-- The closed discriminant enumeration (external `CommandOptionType`; wire
numbers are the Discord application-command option type values). -/
inductive CommandOptionType where
  | subCommand
  | subCommandGroup
  | string
  | integer
  | boolean
  | user
  | channel
  | role
  | mentionable
  | number
  | attachment
deriving DecidableEq, Repr

def CommandOptionType.toWire : CommandOptionType → Int
  | .subCommand => 1
  | .subCommandGroup => 2
  | .string => 3
  | .integer => 4
  | .boolean => 5
  | .user => 6
  | .channel => 7
  | .role => 8
  | .mentionable => 9
  | .number => 10
  | .attachment => 11

def commandOptionTypeOfWire? : Int → Option CommandOptionType
  | 1 => some .subCommand
  | 2 => some .subCommandGroup
  | 3 => some .string
  | 4 => some .integer
  | 5 => some .boolean
  | 6 => some .user
  | 7 => some .channel
  | 8 => some .role
  | 9 => some .mentionable
  | 10 => some .number
  | 11 => some .attachment
  | _ => none

/-- A discriminant is scalar when it is not one of the two sub-grouping ones. -/
def CommandOptionType.isScalar : CommandOptionType → Bool
  | .subCommand => false
  | .subCommandGroup => false
  | _ => true

/-! ### The option value model -/

mutual
inductive CommandDataOption where
  | mk (focused : Bool) (name : String) (value : CommandOptionValue)

inductive CommandOptionValue where
  | attachment (a : Id .attachment)
  | boolean (b : Bool)
  | channel (c : Id .channel)
  | integer (i : Int)
  | mentionable (m : Id .generic)
  | number (n : Number)
  | role (r : Id .role)
  | string (s : String)
  | subCommand (opts : List CommandDataOption)
  | subCommandGroup (opts : List CommandDataOption)
  | user (u : Id .user)
end

def CommandDataOption.focused : CommandDataOption → Bool
  | .mk f _ _ => f

def CommandDataOption.name : CommandDataOption → String
  | .mk _ n _ => n

def CommandDataOption.value : CommandDataOption → CommandOptionValue
  | .mk _ _ v => v

def CommandDataOption.withFocused : CommandDataOption → Bool → CommandDataOption
  | .mk _ n v, f => .mk f n v

/-- Translation of `CommandOptionValue::kind`. -/
def CommandOptionValue.kind : CommandOptionValue → CommandOptionType
  | .attachment _ => .attachment
  | .boolean _ => .boolean
  | .channel _ => .channel
  | .integer _ => .integer
  | .mentionable _ => .mentionable
  | .number _ => .number
  | .role _ => .role
  | .string _ => .string
  | .subCommand _ => .subCommand
  | .subCommandGroup _ => .subCommandGroup
  | .user _ => .user

/-! ### The wire model

A structural map is a sequence of (key, value) pairs, in wire order.  The
three types are a single mutual family (rather than nesting `List`) so that
the decoder below is structurally recursive and computes by definitional
unfolding. -/

mutual
inductive WireValue where
  | bool (b : Bool)
  | int (i : Int)
  | float (f : F64)
  | str (s : String)
  | arr (xs : WireMaps)

inductive WireMaps where
  | nil
  | cons (m : WireMap) (rest : WireMaps)

inductive WireMap where
  | nil
  | cons (k : String) (v : WireValue) (rest : WireMap)
end

/-- Build a structural map from a list of (key, value) pairs. -/
def WireMap.ofList : List (String × WireValue) → WireMap
  | [] => .nil
  | (k, v) :: rest => .cons k v (WireMap.ofList rest)

def WireMaps.ofList : List WireMap → WireMaps
  | [] => .nil
  | m :: rest => .cons m (WireMaps.ofList rest)

/-- The field names of a structural map, in wire order. -/
def WireMap.keys : WireMap → List String
  | .nil => []
  | .cons k _ rest => k :: rest.keys

/-- The number of fields of a structural map. -/
def WireMap.length : WireMap → Nat
  | .nil => 0
  | .cons _ _ rest => rest.length + 1

/-- Concatenation of structural maps (field order preserved). -/
def WireMap.append : WireMap → WireMap → WireMap
  | .nil, b => b
  | .cons k v rest, b => .cons k v (rest.append b)

instance : Append WireMap := ⟨WireMap.append⟩

/-! ### Encoder (`CommandDataOption::serialize`, lines 28-67) -/

/-- The `subcommand_is_empty` test of the serializer. -/
def subcommandIsEmpty (v : CommandOptionValue) : Bool :=
  match v with
  | .subCommand [] => true
  | .subCommandGroup [] => true
  | _ => false

/-- The field count declared to the structural writer (`len`, line 37). -/
def declaredLen (x : CommandDataOption) : Nat :=
  2 + (if subcommandIsEmpty x.value then 0 else 1) + (if x.focused then 1 else 0)

mutual
def serializeOption : CommandDataOption → WireMap
  | .mk focused name value =>
    let tail : WireMap :=
      .cons "name" (.str name)
        (.cons "type" (.int value.kind.toWire) (serializeValueFields value))
    if focused then .cons "focused" (.bool focused) tail else tail

/-- The `match &self.value` of the serializer: identifiers render as decimal
text (per the spec; `Id` serializes as its decimal string), the float wrapper
as a wire float. -/
def serializeValueFields : CommandOptionValue → WireMap
  | .attachment a => .cons "value" (.str (natToDec a.value)) .nil
  | .boolean b => .cons "value" (.bool b) .nil
  | .channel c => .cons "value" (.str (natToDec c.value)) .nil
  | .integer i => .cons "value" (.int i) .nil
  | .mentionable m => .cons "value" (.str (natToDec m.value)) .nil
  | .number n => .cons "value" (.float n.val) .nil
  | .role r => .cons "value" (.str (natToDec r.value)) .nil
  | .string s => .cons "value" (.str s) .nil
  | .subCommand s =>
    if s.isEmpty then .nil else .cons "options" (.arr (serializeList s)) .nil
  | .subCommandGroup s =>
    if s.isEmpty then .nil else .cons "options" (.arr (serializeList s)) .nil
  | .user u => .cons "value" (.str (natToDec u.value)) .nil

def serializeList : List CommandDataOption → WireMaps
  | [] => .nil
  | x :: xs => .cons (serializeOption x) (serializeList xs)
end

/-! ### Decoder (`CommandDataOptionVisitor::visit_map`, lines 118-300) -/

/-- The serde `Unexpected`, as produced for error reporting. -/
inductive Unexpected where
  | bool (b : Bool)
  | signed (i : Int)
  | float (f : F64)
  | str (s : String)
  | other (s : String)
deriving DecidableEq, Repr

/-- The decode error taxonomy.  `custom` covers failures delegated to external
deserializers (a non-string name, an unrecognized discriminant, a non-boolean
focused flag, a value payload matching no envelope variant, a non-sequence
options payload). -/
inductive DeError where
  | duplicateField (f : String)
  | missingField (f : String)
  | invalidType (actual : Unexpected) (expected : String)
  | custom (msg : String)
deriving DecidableEq, Repr

/-- The untagged `ValueEnvelope` (lines 86-94); `Id` is tried before `String`. -/
inductive ValueEnvelope where
  | boolean (b : Bool)
  | integer (i : Int)
  | number (f : F64)
  | id (n : Nat)
  | string (s : String)
deriving DecidableEq, Repr

/-- Translation of `ValueEnvelope::as_unexpected` (lines 96-106). -/
def ValueEnvelope.asUnexpected : ValueEnvelope → Unexpected
  | .boolean b => .bool b
  | .integer i => .signed i
  | .number f => .float f
  | .id _ => .other "ID"
  | .string s => .str s

/-- Untagged resolution of a raw wire value into a `ValueEnvelope`: a wire
boolean is `Boolean`, a wire integer (an i64 on the wire) is `Integer`, a wire
float is `Number`, a wire string is `Id` when it parses as an identifier and
`String` otherwise; a sequence matches no variant. -/
def envelopeOfWire : WireValue → Except DeError ValueEnvelope
  | .bool b => .ok (.boolean b)
  | .int i => .ok (.integer i)
  | .float f => .ok (.number f)
  | .str s =>
    match idOfString? s with
    | some n => .ok (.id n)
    | none => .ok (.string s)
  | .arr _ => .error (.custom "data did not match any variant of untagged enum ValueEnvelope")

/-- Rendering of a raw wire value as an `Unexpected`, for errors raised by the
external deserializers of `name`, `type` and `focused`. -/
def unexpectedOfWire : WireValue → Unexpected
  | .bool b => .bool b
  | .int i => .signed i
  | .float f => .float f
  | .str s => .str s
  | .arr _ => .other "sequence"

/-- The recognized field identifiers (`Fields`, lines 75-81). -/
inductive Fields where
  | name
  | type
  | value
  | options
  | focused
deriving DecidableEq, Repr

def Fields.key : Fields → String
  | .name => "name"
  | .type => "type"
  | .value => "value"
  | .options => "options"
  | .focused => "focused"

def fieldOfKey? : String → Option Fields
  | "name" => some .name
  | "type" => some .type
  | "value" => some .value
  | "options" => some .options
  | "focused" => some .focused
  | _ => none

/-- The decoder accumulators (`name_opt`, `kind_opt`, `options`, `value_opt`,
`focused`, lines 119-123). -/
structure Acc where
  name? : Option String
  kind? : Option CommandOptionType
  options : List CommandDataOption
  value? : Option ValueEnvelope
  focused? : Option Bool

def Acc.init : Acc := ⟨none, none, [], none, none⟩

/-- The dispatch on the discriminant (lines 177-293), producing the name and
the typed value; the final `focused` is attached by `dispatch`. -/
def dispatchCore (acc : Acc) : Except DeError (String × CommandOptionValue) :=
  match acc.name? with
  | none => .error (.missingField "name")
  | some name =>
    match acc.kind? with
    | none => .error (.missingField "type")
    | some kind =>
      match kind with
      | .attachment =>
        match acc.value? with
        | none => .error (.missingField "value")
        | some val =>
          match val with
          | .id n => .ok (name, .attachment ⟨n⟩)
          | _ => .error (.invalidType val.asUnexpected "attachment id")
      | .boolean =>
        match acc.value? with
        | none => .error (.missingField "value")
        | some val =>
          match val with
          | .boolean b => .ok (name, .boolean b)
          | _ => .error (.invalidType val.asUnexpected "boolean")
      | .channel =>
        match acc.value? with
        | none => .error (.missingField "value")
        | some val =>
          match val with
          | .id n => .ok (name, .channel ⟨n⟩)
          | _ => .error (.invalidType val.asUnexpected "channel id")
      | .integer =>
        match acc.value? with
        | none => .error (.missingField "value")
        | some val =>
          match val with
          | .integer i => .ok (name, .integer i)
          | _ => .error (.invalidType val.asUnexpected "integer")
      | .mentionable =>
        match acc.value? with
        | none => .error (.missingField "value")
        | some val =>
          match val with
          | .id n => .ok (name, .mentionable ⟨n⟩)
          | _ => .error (.invalidType val.asUnexpected "mentionable id")
      | .number =>
        match acc.value? with
        | none => .error (.missingField "value")
        | some val =>
          match val with
          | .integer i => .ok (name, .number ⟨F64.ofInt i⟩)
          | .number f => .ok (name, .number ⟨f⟩)
          | other => .error (.invalidType other.asUnexpected "number")
      | .role =>
        match acc.value? with
        | none => .error (.missingField "value")
        | some val =>
          match val with
          | .id n => .ok (name, .role ⟨n⟩)
          | _ => .error (.invalidType val.asUnexpected "role id")
      | .string =>
        match acc.value? with
        | none => .error (.missingField "value")
        | some val =>
          match val with
          | .string s => .ok (name, .string s)
          | .id n => .ok (name, .string (natToDec n))
          | other => .error (.invalidType other.asUnexpected "string")
      | .subCommand => .ok (name, .subCommand acc.options)
      | .subCommandGroup => .ok (name, .subCommandGroup acc.options)
      | .user =>
        match acc.value? with
        | none => .error (.missingField "value")
        | some val =>
          match val with
          | .id n => .ok (name, .user ⟨n⟩)
          | _ => .error (.invalidType val.asUnexpected "user id")

/-- Lines 177-300: dispatch plus the final construction
`CommandDataOption { name, value, focused: focused.unwrap_or_default() }`. -/
def dispatch (acc : Acc) : Except DeError CommandDataOption :=
  match dispatchCore acc with
  | .ok (name, value) => .ok (.mk (acc.focused?.getD false) name value)
  | .error e => .error e

/-- The body of the field loop (lines 138-174) for one key: an unknown key is
read and discarded (left arm, accumulators unchanged); a recognized key whose
accumulator is populated is a duplicate-field error; otherwise the value is
captured.  A well-shaped `options` value is signalled by the right arm for the
loop below to decode recursively, as `map.next_value()` does eagerly. -/
def visitField1 (k : String) (v : WireValue) (acc : Acc) : Except DeError (Acc ⊕ Unit) :=
  match fieldOfKey? k with
  | none => .ok (.inl acc)
  | some .name =>
    if acc.name?.isSome then .error (.duplicateField "name")
    else
      match v with
      | .str s => .ok (.inl { acc with name? := some s })
      | _ => .error (.invalidType (unexpectedOfWire v) "a string")
  | some .type =>
    if acc.kind?.isSome then .error (.duplicateField "type")
    else
      match v with
      | .int i =>
        match commandOptionTypeOfWire? i with
        | some t => .ok (.inl { acc with kind? := some t })
        | none => .error (.custom "invalid command option type")
      | _ => .error (.invalidType (unexpectedOfWire v) "a command option type")
  | some .value =>
    if acc.value?.isSome then .error (.duplicateField "value")
    else
      match envelopeOfWire v with
      | .ok env => .ok (.inl { acc with value? := some env })
      | .error e => .error e
  | some .options =>
    if !acc.options.isEmpty then .error (.duplicateField "options")
    else
      match v with
      | .arr _ => .ok (.inr ())
      | _ => .error (.invalidType (unexpectedOfWire v) "a sequence")
  | some .focused =>
    if acc.focused?.isSome then .error (.duplicateField "focused")
    else
      match v with
      | .bool b => .ok (.inl { acc with focused? := some b })
      | _ => .error (.invalidType (unexpectedOfWire v) "a boolean")

mutual
/-- The field loop (lines 125-175): each field is handled by `visitField1`; an
error aborts the whole decode; a captured `options` sequence is decoded
recursively and stored; otherwise scanning continues with the updated
accumulators. -/
def visitFields : WireMap → Acc → Except DeError Acc
  | .nil, acc => .ok acc
  | .cons k v rest, acc =>
    match visitField1 k v acc with
    | .error e => .error e
    | .ok (.inl acc2) => visitFields rest acc2
    | .ok (.inr ()) =>
      match v with
      | .arr xs =>
        match decodeList xs with
        | .ok os => visitFields rest { acc with options := os }
        | .error e => .error e
      | _ => .error (.custom "unreachable")

/-- Recursive decoding of an `options` sequence (`Vec<CommandDataOption>`). -/
def decodeList : WireMaps → Except DeError (List CommandDataOption)
  | .nil => .ok []
  | .cons m ms =>
    match visitFields m Acc.init with
    | .error e => .error e
    | .ok acc =>
      match dispatch acc with
      | .error e => .error e
      | .ok o =>
        match decodeList ms with
        | .ok os => .ok (o :: os)
        | .error e => .error e
end

/-- Full deserialization of a `CommandDataOption`: scan all fields, then
dispatch on the discriminant. -/
def deserializeOption (m : WireMap) : Except DeError CommandDataOption :=
  match visitFields m Acc.init with
  | .ok acc => dispatch acc
  | .error e => .error e

/-! ### Well-formedness

A value is well-formed when every identifier is a nonzero 64-bit value (the
`NonZeroU64` invariant of `Id`) and every integer fits in an i64. -/

mutual
inductive WFopt : CommandDataOption → Prop where
  | mk {f : Bool} {n : String} {v : CommandOptionValue} : WFval v → WFopt (.mk f n v)

inductive WFval : CommandOptionValue → Prop where
  | attachment {n : Nat} : 0 < n → n < 2 ^ 64 → WFval (.attachment ⟨n⟩)
  | boolean {b : Bool} : WFval (.boolean b)
  | channel {n : Nat} : 0 < n → n < 2 ^ 64 → WFval (.channel ⟨n⟩)
  | integer {i : Int} : -(2 ^ 63) ≤ i → i < 2 ^ 63 → WFval (.integer i)
  | mentionable {n : Nat} : 0 < n → n < 2 ^ 64 → WFval (.mentionable ⟨n⟩)
  | number {x : Number} : WFval (.number x)
  | role {n : Nat} : 0 < n → n < 2 ^ 64 → WFval (.role ⟨n⟩)
  | string {s : String} : WFval (.string s)
  | subCommand {s : List CommandDataOption} :
      (∀ x ∈ s, WFopt x) → WFval (.subCommand s)
  | subCommandGroup {s : List CommandDataOption} :
      (∀ x ∈ s, WFopt x) → WFval (.subCommandGroup s)
  | user {n : Nat} : 0 < n → n < 2 ^ 64 → WFval (.user ⟨n⟩)
end

/-! ### Definitions used only to state claims -/

/-- Whether the accumulator of a recognized field is populated, exactly as the
duplicate checks of the field loop test it: an `options` accumulator counts as
populated only when it is non-empty. -/
def Acc.populated : Fields → Acc → Bool
  | .name, acc => acc.name?.isSome
  | .type, acc => acc.kind?.isSome
  | .value, acc => acc.value?.isSome
  | .options, acc => !acc.options.isEmpty
  | .focused, acc => acc.focused?.isSome

/-- The envelope classification each scalar discriminant accepts. -/
def matchesKind : CommandOptionType → ValueEnvelope → Bool
  | .attachment, .id _ => true
  | .boolean, .boolean _ => true
  | .channel, .id _ => true
  | .integer, .integer _ => true
  | .mentionable, .id _ => true
  | .number, .integer _ => true
  | .number, .number _ => true
  | .role, .id _ => true
  | .string, .string _ => true
  | .string, .id _ => true
  | .user, .id _ => true
  | _, _ => false

/-- The expected-shape text each scalar discriminant reports on mismatch. -/
def expectedShape : CommandOptionType → String
  | .attachment => "attachment id"
  | .boolean => "boolean"
  | .channel => "channel id"
  | .integer => "integer"
  | .mentionable => "mentionable id"
  | .number => "number"
  | .role => "role id"
  | .string => "string"
  | .user => "user id"
  | .subCommand => ""
  | .subCommandGroup => ""

/-! ## Theorems

### Decimal identifier text -/

theorem digitChar_toNat {d : Nat} (h : d < 10) : (digitChar d).toNat = 48 + d := by
  interval_cases d <;> rfl

theorem parseDecList_concat (ds : List Char) (c : Char) :
    parseDecList (ds ++ [c]) = parseDecList ds * 10 + (c.toNat - 48) := by
  simp [parseDecList, List.foldl_append]

theorem parseDecList_decDigitsAux : ∀ fuel n, n ≤ fuel →
    parseDecList (decDigitsAux fuel n) = n := by
  intro fuel
  induction fuel with
  | zero =>
    intro n hn
    interval_cases n
    rfl
  | succ fuel ih =>
    intro n hn
    match n with
    | 0 => rfl
    | m + 1 =>
      rw [decDigitsAux, parseDecList_concat, digitChar_toNat (Nat.mod_lt _ (by omega)),
        ih ((m + 1) / 10) (by omega)]
      omega

theorem parseDec_natToDec (n : Nat) : parseDec (natToDec n) = n := by
  match n with
  | 0 => rfl
  | m + 1 =>
    rw [natToDec, if_neg (by omega)]
    show parseDecList (decDigitsAux (m + 1) (m + 1)) = m + 1
    exact parseDecList_decDigitsAux _ _ le_rfl

theorem idOfString?_natToDec {n : Nat} (h1 : 0 < n) (h2 : n < 2 ^ 64) :
    idOfString? (natToDec n) = some n := by
  simp [idOfString?, parseDec_natToDec, h1]
  omega

theorem idOfString?_eq_some {s : String} {n : Nat} (h : idOfString? s = some n) :
    natToDec n = s ∧ 0 < n ∧ n < 2 ^ 64 := by
  rw [idOfString?] at h
  split at h
  · rename_i hcond
    obtain ⟨h1, h2, h3⟩ := hcond
    cases h
    exact ⟨h1, h2, h3⟩
  · cases h

/-! ### Envelope classification -/

theorem envelopeOfWire_id {s : String} {n : Nat} (h : idOfString? s = some n) :
    envelopeOfWire (.str s) = .ok (.id n) := by
  simp [envelopeOfWire, h]

theorem envelopeOfWire_string {s : String} (h : idOfString? s = none) :
    envelopeOfWire (.str s) = .ok (.string s) := by
  simp [envelopeOfWire, h]

/-! ### Discriminant wire numbers -/

theorem commandOptionTypeOfWire_toWire (t : CommandOptionType) :
    commandOptionTypeOfWire? t.toWire = some t := by
  cases t <;> rfl

/-! ### Scan infrastructure -/

theorem fieldOfKey?_name : fieldOfKey? "name" = some .name := rfl
theorem fieldOfKey?_type : fieldOfKey? "type" = some .type := rfl
theorem fieldOfKey?_value : fieldOfKey? "value" = some .value := rfl
theorem fieldOfKey?_options : fieldOfKey? "options" = some .options := rfl
theorem fieldOfKey?_focused : fieldOfKey? "focused" = some .focused := rfl

theorem fieldOfKey?_key (f : Fields) : fieldOfKey? f.key = some f := by cases f <;> rfl

theorem fieldOfKey?_eq_some {k : String} {f : Fields} (h : fieldOfKey? k = some f) :
    k = f.key := by
  unfold fieldOfKey? at h
  split at h <;> simp_all [Fields.key] <;> (cases h; rfl)

theorem visitFields_cons_error {k : String} {v : WireValue} {rest : WireMap} {acc : Acc}
    {e : DeError} (h : visitField1 k v acc = .error e) :
    visitFields (.cons k v rest) acc = .error e := by
  cases v <;> simp only [visitFields, h]

theorem visitFields_cons_inl {k : String} {v : WireValue} {rest : WireMap} {acc acc2 : Acc}
    (h : visitField1 k v acc = .ok (.inl acc2)) :
    visitFields (.cons k v rest) acc = visitFields rest acc2 := by
  cases v <;> simp only [visitFields, h]

theorem visitField1_inr_shape {k : String} {v : WireValue} {acc : Acc} {u : Unit}
    (h : visitField1 k v acc = .ok (.inr u)) :
    fieldOfKey? k = some .options ∧ acc.options = [] ∧ ∃ xs, v = .arr xs := by
  unfold visitField1 at h
  repeat' split at h
  all_goals try cases h
  all_goals simp_all

theorem visitFields_cons_arr {k : String} {xs : WireMaps} {rest : WireMap} {acc : Acc}
    {u : Unit} (h : visitField1 k (.arr xs) acc = .ok (.inr u)) :
    visitFields (.cons k (.arr xs) rest) acc =
      match decodeList xs with
      | .ok os => visitFields rest { acc with options := os }
      | .error e => .error e := by
  simp only [visitFields, h]

theorem visitFields_append (a b : WireMap) (acc : Acc) :
    visitFields (a ++ b) acc =
      match visitFields a acc with
      | .ok acc2 => visitFields b acc2
      | .error e => .error e := by
  match a with
  | .nil => rfl
  | .cons k v rest =>
    show visitFields (.cons k v (rest ++ b)) acc = _
    cases hstep : visitField1 k v acc with
    | error e => rw [visitFields_cons_error hstep, visitFields_cons_error hstep]
    | ok r =>
      cases r with
      | inl acc2 =>
        rw [visitFields_cons_inl hstep, visitFields_cons_inl hstep]
        exact visitFields_append rest b acc2
      | inr u =>
        obtain ⟨-, -, xs, rfl⟩ := visitField1_inr_shape hstep
        rw [visitFields_cons_arr hstep, visitFields_cons_arr hstep]
        cases decodeList xs with
        | ok os => exact visitFields_append rest b _
        | error e => rfl

theorem visitField1_unknown {k : String} (v : WireValue) (acc : Acc)
    (h : fieldOfKey? k = none) : visitField1 k v acc = .ok (.inl acc) := by
  simp [visitField1, h]

theorem visitField1_dup (f : Fields) (v : WireValue) (acc : Acc)
    (h : acc.populated f = true) :
    visitField1 f.key v acc = .error (.duplicateField f.key) := by
  cases f <;>
    simp_all [visitField1, Fields.key, Acc.populated, fieldOfKey?_name, fieldOfKey?_type,
      fieldOfKey?_value, fieldOfKey?_options, fieldOfKey?_focused]

theorem visitField1_inl_populated_mono {k : String} {v : WireValue} {acc acc2 : Acc}
    (f : Fields) (h : visitField1 k v acc = .ok (.inl acc2))
    (hp : acc.populated f = true) : acc2.populated f = true := by
  unfold visitField1 at h
  repeat' split at h
  all_goals try cases h
  all_goals cases f <;> simp_all [Acc.populated]

theorem visitField1_inl_sets {v : WireValue} {acc acc2 : Acc}
    (f : Fields) (hf : f ≠ .options) (h : visitField1 f.key v acc = .ok (.inl acc2)) :
    acc2.populated f = true := by
  cases f <;> try (exact absurd rfl hf)
  all_goals
    unfold visitField1 at h
    rw [fieldOfKey?_key] at h
    repeat' split at h
    all_goals try cases h
    all_goals simp_all [Acc.populated]

theorem visitField1_inl_focused {k : String} {v : WireValue} {acc acc2 : Acc}
    (hk : fieldOfKey? k ≠ some .focused) (h : visitField1 k v acc = .ok (.inl acc2)) :
    acc2.focused? = acc.focused? := by
  unfold visitField1 at h
  repeat' split at h
  all_goals try cases h
  all_goals simp_all

theorem visitField1_inl_options {k : String} {v : WireValue} {acc acc2 : Acc}
    (h : visitField1 k v acc = .ok (.inl acc2)) :
    acc2.options = acc.options := by
  unfold visitField1 at h
  repeat' split at h
  all_goals try cases h
  all_goals simp_all

theorem visitFields_populated_mono {m : WireMap} {acc acc2 : Acc} (f : Fields)
    (h : visitFields m acc = .ok acc2) (hp : acc.populated f = true) :
    acc2.populated f = true := by
  match m with
  | .nil => cases h; exact hp
  | .cons k v rest =>
    cases hstep : visitField1 k v acc with
    | error e => rw [visitFields_cons_error hstep] at h; cases h
    | ok r =>
      cases r with
      | inl acc3 =>
        rw [visitFields_cons_inl hstep] at h
        exact visitFields_populated_mono f h (visitField1_inl_populated_mono f hstep hp)
      | inr u =>
        obtain ⟨-, hempty, xs, rfl⟩ := visitField1_inr_shape hstep
        rw [visitFields_cons_arr hstep] at h
        cases hdec : decodeList xs with
        | ok os =>
          rw [hdec] at h
          refine visitFields_populated_mono f h ?hp2
          cases f <;> simp_all [Acc.populated]
        | error e => rw [hdec] at h; cases h

theorem visitFields_key_sets {m : WireMap} {acc acc2 : Acc} (f : Fields)
    (hf : f ≠ .options) (h : visitFields m acc = .ok acc2) (hk : f.key ∈ m.keys) :
    acc2.populated f = true := by
  match m with
  | .nil => simp [WireMap.keys] at hk
  | .cons k v rest =>
    rw [WireMap.keys, List.mem_cons] at hk
    cases hstep : visitField1 k v acc with
    | error e => rw [visitFields_cons_error hstep] at h; cases h
    | ok r =>
      cases r with
      | inl acc3 =>
        rw [visitFields_cons_inl hstep] at h
        rcases hk with hk | hk
        · subst hk
          exact visitFields_populated_mono f h (visitField1_inl_sets f hf hstep)
        · exact visitFields_key_sets f hf h hk
      | inr u =>
        obtain ⟨hopt, hempty, xs, rfl⟩ := visitField1_inr_shape hstep
        rcases hk with hk | hk
        · subst hk
          rw [fieldOfKey?_key] at hopt
          cases hopt
          exact absurd rfl hf
        · rw [visitFields_cons_arr hstep] at h
          cases hdec : decodeList xs with
          | ok os => rw [hdec] at h; exact visitFields_key_sets f hf h hk
          | error e => rw [hdec] at h; cases h

theorem visitFields_focused_preserve {m : WireMap} {acc acc2 : Acc}
    (hk : "focused" ∉ m.keys) (h : visitFields m acc = .ok acc2) :
    acc2.focused? = acc.focused? := by
  match m with
  | .nil => cases h; rfl
  | .cons k v rest =>
    rw [WireMap.keys, List.mem_cons, not_or] at hk
    obtain ⟨hk1, hk2⟩ := hk
    cases hstep : visitField1 k v acc with
    | error e => rw [visitFields_cons_error hstep] at h; cases h
    | ok r =>
      cases r with
      | inl acc3 =>
        rw [visitFields_cons_inl hstep] at h
        rw [visitFields_focused_preserve hk2 h]
        exact visitField1_inl_focused
          (fun hc => hk1 (by rw [fieldOfKey?_eq_some hc]; rfl)) hstep
      | inr u =>
        obtain ⟨-, hempty, xs, rfl⟩ := visitField1_inr_shape hstep
        rw [visitFields_cons_arr hstep] at h
        cases hdec : decodeList xs with
        | ok os =>
          rw [hdec] at h
          exact @visitFields_focused_preserve rest { acc with options := os } acc2 hk2 h
        | error e => rw [hdec] at h; cases h

theorem visitFields_options_preserve {m : WireMap} {acc acc2 : Acc}
    (hk : "options" ∉ m.keys) (h : visitFields m acc = .ok acc2) :
    acc2.options = acc.options := by
  match m with
  | .nil => cases h; rfl
  | .cons k v rest =>
    rw [WireMap.keys, List.mem_cons, not_or] at hk
    obtain ⟨hk1, hk2⟩ := hk
    cases hstep : visitField1 k v acc with
    | error e => rw [visitFields_cons_error hstep] at h; cases h
    | ok r =>
      cases r with
      | inl acc3 =>
        rw [visitFields_cons_inl hstep] at h
        rw [visitFields_options_preserve hk2 h]
        exact visitField1_inl_options hstep
      | inr u =>
        obtain ⟨hopt, -, xs, rfl⟩ := visitField1_inr_shape hstep
        exact absurd (by rw [fieldOfKey?_eq_some hopt]; rfl) hk1

theorem visitField1_update_error {k : String} {v : WireValue} {acc : Acc} {e : DeError}
    (w : Option Bool) (hk : fieldOfKey? k ≠ some .focused)
    (h : visitField1 k v acc = .error e) :
    visitField1 k v { acc with focused? := w } = .error e := by
  unfold visitField1 at h ⊢
  repeat' split at h
  all_goals try cases h
  all_goals simp_all

theorem visitField1_update_inl {k : String} {v : WireValue} {acc acc2 : Acc}
    (w : Option Bool) (hk : fieldOfKey? k ≠ some .focused)
    (h : visitField1 k v acc = .ok (.inl acc2)) :
    visitField1 k v { acc with focused? := w } = .ok (.inl { acc2 with focused? := w }) := by
  unfold visitField1 at h ⊢
  repeat' split at h
  all_goals try cases h
  all_goals simp_all

theorem visitField1_update_inr {k : String} {v : WireValue} {acc : Acc} {u : Unit}
    (w : Option Bool) (h : visitField1 k v acc = .ok (.inr u)) :
    visitField1 k v { acc with focused? := w } = .ok (.inr u) := by
  unfold visitField1 at h ⊢
  repeat' split at h
  all_goals try cases h
  all_goals simp_all

theorem visitFields_setFocused {m : WireMap} {acc acc2 : Acc} (w : Option Bool)
    (hk : "focused" ∉ m.keys) (h : visitFields m acc = .ok acc2) :
    visitFields m { acc with focused? := w } = .ok { acc2 with focused? := w } := by
  match m with
  | .nil => cases h; rfl
  | .cons k v rest =>
    rw [WireMap.keys, List.mem_cons, not_or] at hk
    obtain ⟨hk1, hk2⟩ := hk
    have hkf : fieldOfKey? k ≠ some .focused :=
      fun hc => hk1 (by rw [fieldOfKey?_eq_some hc]; rfl)
    cases hstep : visitField1 k v acc with
    | error e => rw [visitFields_cons_error hstep] at h; cases h
    | ok r =>
      cases r with
      | inl acc3 =>
        rw [visitFields_cons_inl hstep] at h
        rw [visitFields_cons_inl (visitField1_update_inl w hkf hstep)]
        exact visitFields_setFocused w hk2 h
      | inr u =>
        obtain ⟨-, hempty, xs, rfl⟩ := visitField1_inr_shape hstep
        rw [visitFields_cons_arr hstep] at h
        cases hdec : decodeList xs with
        | ok os =>
          rw [hdec] at h
          rw [visitFields_cons_arr (visitField1_update_inr w hstep), hdec]
          exact @visitFields_setFocused rest { acc with options := os } acc2 w hk2 h
        | error e => rw [hdec] at h; cases h

theorem dispatchCore_focused_irrel (acc : Acc) (w : Option Bool) :
    dispatchCore { acc with focused? := w } = dispatchCore acc := rfl

theorem dispatch_ok_focused {acc : Acc} {o : CommandDataOption}
    (h : dispatch acc = .ok o) : o.focused = acc.focused?.getD false := by
  unfold dispatch at h
  split at h
  · rename_i p hp
    cases h
    rfl
  · cases h

theorem dispatch_setFocused (acc : Acc) (b : Bool) :
    dispatch { acc with focused? := some b } = (dispatch acc).map (fun o => o.withFocused b) := by
  unfold dispatch
  rw [dispatchCore_focused_irrel]
  cases dispatchCore acc with
  | ok p =>
    obtain ⟨nm, val⟩ := p
    simp [Except.map, CommandDataOption.withFocused]
  | error e => simp [Except.map]

/-! ### Round-trip -/

mutual
theorem roundTripOption : ∀ (x : CommandDataOption), WFopt x →
    deserializeOption (serializeOption x) = .ok x
  | .mk f nm v, h => by
    have hv : WFval v := by cases h; assumption
    cases hv with
    | boolean => cases f <;> rfl
    | integer h1 h2 => cases f <;> rfl
    | number => cases f <;> rfl
    | attachment h1 h2 =>
      have hid := idOfString?_natToDec h1 h2
      cases f <;>
        simp [serializeOption, serializeValueFields, CommandOptionValue.kind,
          CommandOptionType.toWire, deserializeOption, visitFields, visitField1,
          fieldOfKey?_name, fieldOfKey?_type, fieldOfKey?_value, fieldOfKey?_focused,
          commandOptionTypeOfWire?, envelopeOfWire, hid, dispatch, dispatchCore, Acc.init]
    | channel h1 h2 =>
      have hid := idOfString?_natToDec h1 h2
      cases f <;>
        simp [serializeOption, serializeValueFields, CommandOptionValue.kind,
          CommandOptionType.toWire, deserializeOption, visitFields, visitField1,
          fieldOfKey?_name, fieldOfKey?_type, fieldOfKey?_value, fieldOfKey?_focused,
          commandOptionTypeOfWire?, envelopeOfWire, hid, dispatch, dispatchCore, Acc.init]
    | mentionable h1 h2 =>
      have hid := idOfString?_natToDec h1 h2
      cases f <;>
        simp [serializeOption, serializeValueFields, CommandOptionValue.kind,
          CommandOptionType.toWire, deserializeOption, visitFields, visitField1,
          fieldOfKey?_name, fieldOfKey?_type, fieldOfKey?_value, fieldOfKey?_focused,
          commandOptionTypeOfWire?, envelopeOfWire, hid, dispatch, dispatchCore, Acc.init]
    | role h1 h2 =>
      have hid := idOfString?_natToDec h1 h2
      cases f <;>
        simp [serializeOption, serializeValueFields, CommandOptionValue.kind,
          CommandOptionType.toWire, deserializeOption, visitFields, visitField1,
          fieldOfKey?_name, fieldOfKey?_type, fieldOfKey?_value, fieldOfKey?_focused,
          commandOptionTypeOfWire?, envelopeOfWire, hid, dispatch, dispatchCore, Acc.init]
    | user h1 h2 =>
      have hid := idOfString?_natToDec h1 h2
      cases f <;>
        simp [serializeOption, serializeValueFields, CommandOptionValue.kind,
          CommandOptionType.toWire, deserializeOption, visitFields, visitField1,
          fieldOfKey?_name, fieldOfKey?_type, fieldOfKey?_value, fieldOfKey?_focused,
          commandOptionTypeOfWire?, envelopeOfWire, hid, dispatch, dispatchCore, Acc.init]
    | string =>
      rename_i s
      cases hid : idOfString? s with
      | some n =>
        obtain ⟨hrender, -, -⟩ := idOfString?_eq_some hid
        cases f <;>
          simp [serializeOption, serializeValueFields, CommandOptionValue.kind,
            CommandOptionType.toWire, deserializeOption, visitFields, visitField1,
            fieldOfKey?_name, fieldOfKey?_type, fieldOfKey?_value, fieldOfKey?_focused,
            commandOptionTypeOfWire?, envelopeOfWire, hid, hrender, dispatch, dispatchCore,
            Acc.init]
      | none =>
        cases f <;>
          simp [serializeOption, serializeValueFields, CommandOptionValue.kind,
            CommandOptionType.toWire, deserializeOption, visitFields, visitField1,
            fieldOfKey?_name, fieldOfKey?_type, fieldOfKey?_value, fieldOfKey?_focused,
            commandOptionTypeOfWire?, envelopeOfWire, hid, dispatch, dispatchCore, Acc.init]
    | subCommand hmem =>
      rename_i s
      match s, hmem with
      | [], _ => cases f <;> rfl
      | y :: ys, hmem =>
        have hdec : decodeList (serializeList (y :: ys)) = .ok (y :: ys) :=
          roundTripList (y :: ys) hmem
        cases f <;>
          simp [serializeOption, serializeValueFields, CommandOptionValue.kind,
            CommandOptionType.toWire, deserializeOption, visitFields, visitField1,
            fieldOfKey?_name, fieldOfKey?_type, fieldOfKey?_options, fieldOfKey?_focused,
            commandOptionTypeOfWire?, hdec, dispatch, dispatchCore, Acc.init]
    | subCommandGroup hmem =>
      rename_i s
      match s, hmem with
      | [], _ => cases f <;> rfl
      | y :: ys, hmem =>
        have hdec : decodeList (serializeList (y :: ys)) = .ok (y :: ys) :=
          roundTripList (y :: ys) hmem
        cases f <;>
          simp [serializeOption, serializeValueFields, CommandOptionValue.kind,
            CommandOptionType.toWire, deserializeOption, visitFields, visitField1,
            fieldOfKey?_name, fieldOfKey?_type, fieldOfKey?_options, fieldOfKey?_focused,
            commandOptionTypeOfWire?, hdec, dispatch, dispatchCore, Acc.init]

theorem roundTripList : ∀ (s : List CommandDataOption), (∀ y ∈ s, WFopt y) →
    decodeList (serializeList s) = .ok s
  | [], _ => rfl
  | x :: xs, h => by
    have rto := roundTripOption x (h x (List.mem_cons_self x xs))
    have rtl := roundTripList xs (fun y hy => h y (List.mem_cons_of_mem x hy))
    show decodeList (.cons (serializeOption x) (serializeList xs)) = .ok (x :: xs)
    unfold deserializeOption at rto
    cases hv : visitFields (serializeOption x) Acc.init with
    | error e => rw [hv] at rto; cases rto
    | ok acc =>
      rw [hv] at rto
      change dispatch acc = Except.ok x at rto
      show (match visitFields (serializeOption x) Acc.init with
        | Except.error e => (Except.error e : Except DeError (List CommandDataOption))
        | Except.ok acc =>
          match dispatch acc with
          | Except.error e => Except.error e
          | Except.ok o =>
            match decodeList (serializeList xs) with
            | Except.ok os => Except.ok (o :: os)
            | Except.error e => Except.error e) = Except.ok (x :: xs)
      rw [hv]
      change (match dispatch acc with
        | Except.error e => (Except.error e : Except DeError (List CommandDataOption))
        | Except.ok o =>
          match decodeList (serializeList xs) with
          | Except.ok os => Except.ok (o :: os)
          | Except.error e => Except.error e) = Except.ok (x :: xs)
      rw [rto]
      change (match decodeList (serializeList xs) with
        | Except.ok os => (Except.ok (x :: os) : Except DeError (List CommandDataOption))
        | Except.error e => Except.error e) = Except.ok (x :: xs)
      rw [rtl]
end

theorem WireMap.keys_append (a b : WireMap) : (a ++ b).keys = a.keys ++ b.keys := by
  match a with
  | .nil => rfl
  | .cons k v rest =>
    show k :: (rest ++ b).keys = (k :: rest.keys) ++ b.keys
    rw [WireMap.keys_append rest b]
    rfl

theorem deserializeOption_scan_ok {m : WireMap} {acc : Acc}
    (h : visitFields m Acc.init = .ok acc) : deserializeOption m = dispatch acc := by
  unfold deserializeOption
  rw [h]

theorem deserializeOption_scan_error {m : WireMap} {e : DeError}
    (h : visitFields m Acc.init = .error e) : deserializeOption m = .error e := by
  unfold deserializeOption
  rw [h]

theorem visitField1_focused_set (b : Bool) (acc : Acc) (h : acc.focused? = none) :
    visitField1 "focused" (.bool b) acc = .ok (.inl { acc with focused? := some b }) := by
  simp [visitField1, fieldOfKey?_focused, h]


/-! ### Claims -/

/-- C1: for every well-formed `CommandDataOption`, of each of the 11 variants,
serializing and then deserializing yields a value structurally equal to the
original, recursively at every nesting level of SubCommand and
SubCommandGroup payloads. -/
theorem c1_roundtrip (x : CommandDataOption) (h : WFopt x) :
    deserializeOption (serializeOption x) = .ok x :=
  roundTripOption x h

theorem c1_roundtrip_witness :
    deserializeOption (serializeOption (.mk true "grp" (.subCommandGroup
      [.mk false "sub" (.subCommand [.mk false "leaf" (.string "123456789012345678")])])))
    = .ok (.mk true "grp" (.subCommandGroup
      [.mk false "sub" (.subCommand [.mk false "leaf" (.string "123456789012345678")])])) := by
  have w1 : WFopt (.mk false "leaf" (.string "123456789012345678")) := .mk .string
  have w2 : WFopt (.mk false "sub" (.subCommand [.mk false "leaf" (.string "123456789012345678")])) :=
    .mk (.subCommand (by
      intro y hy
      rw [List.mem_singleton] at hy
      subst hy
      exact w1))
  exact c1_roundtrip _ (.mk (.subCommandGroup (by
    intro y hy
    rw [List.mem_singleton] at hy
    subst hy
    exact w2)))

/-- C2: a wire string that is lexically a valid 64-bit unsigned identifier
decodes under discriminant User to variant User carrying the numeric value,
and under discriminant String to variant String carrying the original text
unchanged. -/
theorem c2_id_over_string (nm s : String) (n : Nat) (h : idOfString? s = some n) :
    deserializeOption (.cons "name" (.str nm)
        (.cons "type" (.int 6) (.cons "value" (.str s) .nil)))
      = .ok (.mk false nm (.user ⟨n⟩))
    ∧ deserializeOption (.cons "name" (.str nm)
        (.cons "type" (.int 3) (.cons "value" (.str s) .nil)))
      = .ok (.mk false nm (.string s)) := by
  obtain ⟨hrender, -, -⟩ := idOfString?_eq_some h
  constructor <;>
    simp [deserializeOption, visitFields, visitField1, fieldOfKey?_name, fieldOfKey?_type,
      fieldOfKey?_value, commandOptionTypeOfWire?, envelopeOfWire, h, hrender,
      dispatch, dispatchCore, Acc.init]

theorem c2_id_over_string_witness :
    deserializeOption (.cons "name" (.str "opt")
        (.cons "type" (.int 6) (.cons "value" (.str "123456789012345678") .nil)))
      = .ok (.mk false "opt" (.user ⟨123456789012345678⟩))
    ∧ deserializeOption (.cons "name" (.str "opt")
        (.cons "type" (.int 3) (.cons "value" (.str "123456789012345678") .nil)))
      = .ok (.mk false "opt" (.string "123456789012345678")) :=
  c2_id_over_string "opt" "123456789012345678" 123456789012345678 rfl

/-- C3 counterexample: a map in which the recognized field `options` occurs
twice decodes successfully (the first occurrence captured an empty sequence),
instead of failing with duplicate-field("options") as the claim demands. -/
theorem c3_counterexample :
    deserializeOption (.cons "name" (.str "a") (.cons "type" (.int 1)
        (.cons "options" (.arr .nil) (.cons "options" (.arr .nil) .nil))))
      = .ok (.mk false "a" (.subCommand [])) := rfl

/-- C3 (amended): a second occurrence of a recognized field fails with a
duplicate-field error naming that field whenever the scan of the fields before
it succeeds and the field accumulator is populated; for name, type, value and
focused any earlier occurrence in a successful scan populates it, while for
options only an earlier occurrence that captured a non-empty sequence does. -/
theorem c3_duplicate_amended (f : Fields) (xs ys : WireMap) (w : WireValue) (acc : Acc)
    (hscan : visitFields xs Acc.init = .ok acc) :
    (f ≠ .options → f.key ∈ xs.keys →
      deserializeOption (xs ++ .cons f.key w ys) = .error (.duplicateField f.key))
    ∧ (acc.populated f = true →
      deserializeOption (xs ++ .cons f.key w ys) = .error (.duplicateField f.key)) := by
  have main : acc.populated f = true →
      deserializeOption (xs ++ .cons f.key w ys) = .error (.duplicateField f.key) := by
    intro hp
    unfold deserializeOption
    rw [visitFields_append, hscan]
    change (match visitFields (WireMap.cons f.key w ys) acc with
      | Except.ok acc2 => dispatch acc2
      | Except.error e => Except.error e) = Except.error (DeError.duplicateField f.key)
    rw [visitFields_cons_error (visitField1_dup f w acc hp)]
  exact ⟨fun hf hk => main (visitFields_key_sets f hf hscan hk), main⟩

theorem c3_duplicate_amended_witness :
    deserializeOption (.cons "name" (.str "a") .nil ++
        .cons "name" (.str "b") .nil)
      = .error (.duplicateField "name") :=
  (c3_duplicate_amended .name (.cons "name" (.str "a") .nil) .nil (.str "b")
      { Acc.init with name? := some "a" } rfl).1 (by decide) (by decide)

/-- C5: serialization emits exactly the conditional field set — `focused` iff
focused is true, `name` and `type` always, `value` for every scalar variant,
`options` iff the variant is sub-grouping with a non-empty payload — and the
field count declared to the structural writer equals the number of fields
actually emitted. -/
theorem c5_field_set (x : CommandDataOption) :
    (serializeOption x).keys =
      (if x.focused then ["focused"] else []) ++ ["name", "type"]
        ++ (match x.value with
            | .subCommand s => if s.isEmpty then [] else ["options"]
            | .subCommandGroup s => if s.isEmpty then [] else ["options"]
            | _ => ["value"])
    ∧ (serializeOption x).length = declaredLen x := by
  obtain ⟨f, nm, v⟩ := x
  refine ⟨?_, ?_⟩ <;>
    cases f <;> cases v <;>
      first
      | rfl
      | (rename_i s
         cases s <;>
           simp [serializeOption, serializeValueFields, WireMap.keys, WireMap.length,
             declaredLen, subcommandIsEmpty, CommandDataOption.focused,
             CommandDataOption.value, CommandOptionValue.kind])

/-- C6: once the field scan has completed, decoding fails with
missing-field("name") when name was never set, with missing-field("type") when
the discriminant was never set, and for every scalar discriminant with
missing-field("value") when no value was captured; SubCommand and
SubCommandGroup succeed without a value, treating an absent options field as
an empty sequence. -/
theorem c6_missing_fields (m : WireMap) (acc : Acc)
    (hscan : visitFields m Acc.init = .ok acc) :
    (acc.name? = none → deserializeOption m = .error (.missingField "name"))
    ∧ (∀ nm, acc.name? = some nm → acc.kind? = none →
        deserializeOption m = .error (.missingField "type"))
    ∧ (∀ nm t, acc.name? = some nm → acc.kind? = some t → t.isScalar = true →
        acc.value? = none → deserializeOption m = .error (.missingField "value"))
    ∧ (∀ nm, acc.name? = some nm → acc.kind? = some .subCommand →
        deserializeOption m = .ok (.mk (acc.focused?.getD false) nm (.subCommand acc.options)))
    ∧ (∀ nm, acc.name? = some nm → acc.kind? = some .subCommandGroup →
        deserializeOption m =
          .ok (.mk (acc.focused?.getD false) nm (.subCommandGroup acc.options)))
    ∧ ("options" ∉ m.keys → acc.options = []) := by
  rw [deserializeOption_scan_ok hscan]
  refine ⟨?_, ?_, ?_, ?_, ?_, ?_⟩
  · intro hname
    simp [dispatch, dispatchCore, hname]
  · intro nm hname hkind
    simp [dispatch, dispatchCore, hname, hkind]
  · intro nm t hname hkind hscal hval
    cases t <;> simp_all [dispatch, dispatchCore, CommandOptionType.isScalar]
  · intro nm hname hkind
    simp [dispatch, dispatchCore, hname, hkind]
  · intro nm hname hkind
    simp [dispatch, dispatchCore, hname, hkind]
  · intro hopt
    exact visitFields_options_preserve hopt hscan

theorem c6_missing_fields_witness :
    deserializeOption .nil = .error (.missingField "name") :=
  (c6_missing_fields .nil Acc.init rfl).1 rfl

/-- C7: for every scalar discriminant, a captured value envelope whose
classification does not match the shape the discriminant demands makes
decoding fail with an invalid-type error reporting the expected shape and the
actual shape. -/
theorem c7_invalid_type (m : WireMap) (acc : Acc) (nm : String) (t : CommandOptionType)
    (env : ValueEnvelope) (hscan : visitFields m Acc.init = .ok acc)
    (hname : acc.name? = some nm) (hkind : acc.kind? = some t) (hscal : t.isScalar = true)
    (henv : acc.value? = some env) (hmm : matchesKind t env = false) :
    deserializeOption m = .error (.invalidType env.asUnexpected (expectedShape t)) := by
  rw [deserializeOption_scan_ok hscan]
  cases t <;> cases env <;>
    simp_all [dispatch, dispatchCore, CommandOptionType.isScalar, matchesKind,
      expectedShape, ValueEnvelope.asUnexpected]

theorem c7_invalid_type_witness :
    deserializeOption (.cons "name" (.str "a") (.cons "type" (.int 5)
        (.cons "value" (.str "true") .nil)))
      = .error (.invalidType (.str "true") "boolean") :=
  c7_invalid_type _ ⟨some "a", some .boolean, [], some (.string "true"), none⟩
    "a" .boolean (.string "true") rfl rfl rfl rfl rfl rfl

/-- C8: an input map containing all the fields of a successfully decoding map
plus an extra field with an unrecognized name decodes to the same
CommandDataOption, the unknown field being read and discarded. -/
theorem c8_unknown_tolerated (pre post : WireMap) (k : String) (v : WireValue)
    (o : CommandDataOption) (hk : fieldOfKey? k = none)
    (hok : deserializeOption (pre ++ post) = .ok o) :
    deserializeOption (pre ++ .cons k v post) = .ok o := by
  unfold deserializeOption at hok ⊢
  rw [visitFields_append] at hok ⊢
  cases hpre : visitFields pre Acc.init with
  | error e => rw [hpre] at hok; cases hok
  | ok acc =>
    try rw [hpre] at hok
    try rw [hpre]
    change (match visitFields post acc with
      | Except.ok a2 => dispatch a2
      | Except.error e => Except.error e) = Except.ok o at hok
    change (match visitFields (WireMap.cons k v post) acc with
      | Except.ok a2 => dispatch a2
      | Except.error e => Except.error e) = Except.ok o
    rw [visitFields_cons_inl (visitField1_unknown v acc hk)]
    exact hok

theorem c8_unknown_tolerated_witness :
    deserializeOption (.cons "name" (.str "a") (.cons "type" (.int 5) .nil)
        ++ .cons "color" (.int 3) (.cons "value" (.bool true) .nil))
      = .ok (.mk false "a" (.boolean true)) :=
  c8_unknown_tolerated (.cons "name" (.str "a") (.cons "type" (.int 5) .nil))
    (.cons "value" (.bool true) .nil) "color" (.int 3)
    (.mk false "a" (.boolean true)) rfl rfl

/-- C9: decoding a map without a focused field yields focused == false, and
serialization emits the focused field exactly when focused is true. -/
theorem c9_focused_default (m : WireMap) (o x : CommandDataOption)
    (hnf : "focused" ∉ m.keys) (hok : deserializeOption m = .ok o) :
    o.focused = false
    ∧ ("focused" ∈ (serializeOption x).keys ↔ x.focused = true) := by
  constructor
  · unfold deserializeOption at hok
    cases hscan : visitFields m Acc.init with
    | error e => rw [hscan] at hok; cases hok
    | ok acc =>
      rw [hscan] at hok
      change dispatch acc = Except.ok o at hok
      rw [dispatch_ok_focused hok, visitFields_focused_preserve hnf hscan]
      rfl
  · obtain ⟨f, nm, v⟩ := x
    cases f with
    | true => simp [serializeOption, WireMap.keys, CommandDataOption.focused]
    | false =>
      simp only [serializeOption, CommandDataOption.focused, if_neg]
      cases v <;> (try simp [serializeValueFields, WireMap.keys]) <;>
        (try split) <;> simp_all [WireMap.keys]

theorem c9_focused_default_witness :
    (CommandDataOption.mk false "a" (.boolean true)).focused = false
    ∧ ("focused" ∈ (serializeOption (.mk true "b" (.integer 3))).keys ↔
        (CommandDataOption.mk true "b" (.integer 3)).focused = true) :=
  c9_focused_default (.cons "name" (.str "a") (.cons "type" (.int 5)
      (.cons "value" (.bool true) .nil)))
    (.mk false "a" (.boolean true)) (.mk true "b" (.integer 3)) (by decide) rfl

/-- C10: decoding accepts an explicit focused field with value false, a shape
the encoder never produces, and yields the same result as when the field is
absent; decoding succeeds for either boolean value of an explicit focused
field, setting the flag accordingly. -/
theorem c10_explicit_focused (pre post : WireMap) (o : CommandDataOption)
    (hnf : "focused" ∉ (pre ++ post).keys)
    (hok : deserializeOption (pre ++ post) = .ok o) :
    deserializeOption (pre ++ .cons "focused" (.bool false) post) = .ok o
    ∧ ∀ b, deserializeOption (pre ++ .cons "focused" (.bool b) post)
        = .ok (o.withFocused b) := by
  rw [WireMap.keys_append, List.mem_append, not_or] at hnf
  obtain ⟨hnf1, hnf2⟩ := hnf
  unfold deserializeOption at hok
  rw [visitFields_append] at hok
  have main : ∀ b, deserializeOption (pre ++ .cons "focused" (.bool b) post)
      = .ok (o.withFocused b) := by
    intro b
    cases hpre : visitFields pre Acc.init with
    | error e => rw [hpre] at hok; cases hok
    | ok acc =>
      rw [hpre] at hok
      change (match visitFields post acc with
        | Except.ok acc2 => dispatch acc2
        | Except.error e => Except.error e) = Except.ok o at hok
      cases hpost : visitFields post acc with
      | error e => rw [hpost] at hok; cases hok
      | ok accf =>
        rw [hpost] at hok
        change dispatch accf = Except.ok o at hok
        have hfacc : acc.focused? = none := visitFields_focused_preserve hnf1 hpre
        unfold deserializeOption
        rw [visitFields_append, hpre]
        change (match visitFields (WireMap.cons "focused" (.bool b) post) acc with
          | Except.ok acc2 => dispatch acc2
          | Except.error e => Except.error e) = Except.ok (o.withFocused b)
        rw [visitFields_cons_inl (visitField1_focused_set b acc hfacc),
          visitFields_setFocused (some b) hnf2 hpost]
        change dispatch { accf with focused? := some b } = Except.ok (o.withFocused b)
        rw [dispatch_setFocused accf b, hok]
        rfl
  have hofoc : o.focused = false := by
    cases hpre : visitFields pre Acc.init with
    | error e => rw [hpre] at hok; cases hok
    | ok acc =>
      rw [hpre] at hok
      change (match visitFields post acc with
        | Except.ok acc2 => dispatch acc2
        | Except.error e => Except.error e) = Except.ok o at hok
      cases hpost : visitFields post acc with
      | error e => rw [hpost] at hok; cases hok
      | ok accf =>
        rw [hpost] at hok
        change dispatch accf = Except.ok o at hok
        rw [dispatch_ok_focused hok, visitFields_focused_preserve hnf2 hpost,
          visitFields_focused_preserve hnf1 hpre]
        rfl
  refine ⟨?_, main⟩
  rw [main false]
  obtain ⟨f, nm, v⟩ := o
  cases f with
  | false => rfl
  | true => cases hofoc


theorem c10_explicit_focused_witness :
    deserializeOption (.cons "name" (.str "a") (.cons "type" (.int 5) .nil)
        ++ .cons "focused" (.bool false) (.cons "value" (.bool true) .nil))
      = .ok (.mk false "a" (.boolean true))
    ∧ ∀ b, deserializeOption (.cons "name" (.str "a") (.cons "type" (.int 5) .nil)
        ++ .cons "focused" (.bool b) (.cons "value" (.bool true) .nil))
      = .ok ((CommandDataOption.mk false "a" (.boolean true)).withFocused b) :=
  c10_explicit_focused (.cons "name" (.str "a") (.cons "type" (.int 5) .nil))
    (.cons "value" (.bool true) .nil) (.mk false "a" (.boolean true)) (by decide) rfl

end Twilight
